import Mathlib

/-!
Verification development for the plugin subsystem of the CloudCraver
repository (src/src/plugins).  The Python sources are shallowly embedded:
pure functions become Lean functions, stateful methods become explicit
state-passing functions, Python dictionaries become association lists that
keep insertion order, raised exceptions become Option/Except values, and
JSON data becomes an inductive Json tree.  Each definition carries a note
pointing at the Python definition it embeds.
-/

/-- Utility: update an association list the way a Python dict assignment
does, keeping the position of an existing key and appending new keys. -/
def assocSet {α : Type} : List (String × α) → String → α → List (String × α)
  | [], k, v => [(k, v)]
  | (k', v') :: rest, k, v =>
    if k' = k then (k', v) :: rest else (k', v') :: assocSet rest k v

/-- Utility: split a character list on a separator character, the way the
Python str.split method does (an empty input gives one empty group). -/
def splitOnChar (sep : Char) : List Char → List (List Char)
  | [] => [[]]
  | c :: rest =>
    match splitOnChar sep rest with
    | [] => if c = sep then [[], []] else [[c]]
    | group :: groups =>
      if c = sep then [] :: group :: groups else (c :: group) :: groups

/-- Utility: drop leading and trailing whitespace from a character list,
modelling the Python str.strip method. -/
def trimChars (cs : List Char) : List Char :=
  ((cs.dropWhile Char.isWhitespace).reverse.dropWhile Char.isWhitespace).reverse

/-- Utility: Python str.strip on a string, via trimChars. -/
def pyStrip (s : String) : String := String.mk (trimChars s.data)

/-- Utility: substring test on character lists, modelling the Python
test (pat in s). -/
def hasSubstr (pat : List Char) : List Char → Bool
  | [] => pat.isPrefixOf []
  | c :: rest => pat.isPrefixOf (c :: rest) || hasSubstr pat rest

/-- Utility: test whether a string starts with the slash character,
modelling the Python call file_name.startswith with a slash argument. -/
def startsWithSlash (s : String) : Bool :=
  match s.data with
  | '/' :: _ => true
  | _ => false

/-- Utility: ASCII lower-casing of a string, modelling str.lower. -/
def pyLower (s : String) : String := String.mk (s.data.map Char.toLower)

/-- Utility: parse a non-empty all-digit character list as a natural
number; any other input is rejected. -/
def parseNatChars (cs : List Char) : Option Nat :=
  if cs.isEmpty then none
  else if cs.all Char.isDigit then
    some (cs.foldl (fun acc c => acc * 10 + (c.toNat - '0'.toNat)) 0)
  else none

/-- Version values: the release-segment list of a parsed version, the
fragment of the packaging library that plugin dependency specs use. -/
abbrev ReleaseVersion := List Nat

/-- Model of packaging.version.parse restricted to plain release versions
(an optional v prefix followed by dot-separated numerals); every other
input raises InvalidVersion in the library and is modelled as none. -/
def parse_version (s : String) : Option ReleaseVersion :=
  let cs := trimChars s.data
  let cs := match cs with
    | 'v' :: rest => rest
    | 'V' :: rest => rest
    | rest => rest
  (splitOnChar '.' cs).mapM parseNatChars

/-- Release tuples compare after trailing zeros are removed, as in the
packaging library comparison key. -/
def releaseStrip (v : ReleaseVersion) : ReleaseVersion :=
  (v.reverse.dropWhile (fun n => n == 0)).reverse

/-- Strict lexicographic order on natural-number lists. -/
def lexLtB : List Nat → List Nat → Bool
  | [], [] => false
  | [], _ :: _ => true
  | _ :: _, [] => false
  | a :: as, b :: bs => a < b || (a == b && lexLtB as bs)

/-- Version strict order, modelling comparison of packaging Version
objects for release-only versions. -/
def verLtB (a b : ReleaseVersion) : Bool := lexLtB (releaseStrip a) (releaseStrip b)

/-- Version equality, modelling equality of packaging Version objects for
release-only versions. -/
def verEqB (a b : ReleaseVersion) : Bool := releaseStrip a == releaseStrip b

/-- Version non-strict order. -/
def verLeB (a b : ReleaseVersion) : Bool := verLtB a b || verEqB a b

/-- Constraint operators in the order the regular expression in
DependencyManager._check_single_constraint tries them. -/
def constraintOps : List String := [">=", "<=", ">", "<", "==", "!="]

/-- Application of a single comparison operator, embedding the operator
dispatch in DependencyManager._check_single_constraint
(src/src/plugins/dependency.py lines 213 to 227). -/
def applyConstraintOp (op : String) (v cv : ReleaseVersion) : Bool :=
  if op = ">=" then verLeB cv v
  else if op = "<=" then verLeB v cv
  else if op = ">" then verLtB cv v
  else if op = "<" then verLtB v cv
  else if op = "==" then verEqB v cv
  else if op = "!=" then !(verEqB v cv)
  else false

/-- Embedding of DependencyManager._check_single_constraint
(src/src/plugins/dependency.py lines 190 to 227).  The result none models
an InvalidVersion exception escaping from version.parse; some false models
the regular expression not matching or the operator test failing.  The
greedy optional operator group matches an operator only when at least one
character remains for the version group, as the backtracking regular
expression does. -/
def check_single_constraint (v : ReleaseVersion) (constraint : String) : Option Bool :=
  let cd := (pyStrip constraint).data
  if cd.isEmpty then some false
  else if cd.any (fun c => c = '\n') then some false
  else
    match constraintOps.find? (fun op => op.data.isPrefixOf cd && op.data.length < cd.length) with
    | some op =>
      match parse_version (String.mk (cd.drop op.data.length)) with
      | none => none
      | some cv => some (applyConstraintOp op v cv)
    | none =>
      match parse_version (String.mk cd) with
      | none => none
      | some cv => some (verEqB v cv)

/-- Sequential conjunction loop over constraints inside
DependencyManager._check_version_constraints; a none result of any single
check models an exception and yields false for the whole call. -/
def checkConstraintList (v : ReleaseVersion) : List String → Bool
  | [] => true
  | c :: cs =>
    match check_single_constraint v c with
    | some true => checkConstraintList v cs
    | some false => false
    | none => false

/-- Embedding of DependencyManager._check_version_constraints
(src/src/plugins/dependency.py lines 163 to 188): an empty constraint list
accepts any version; otherwise the version is parsed (a parse failure is
an exception caught as false) and every constraint must hold. -/
def check_version_constraints (plugin_version : String) (constraints : List String) : Bool :=
  if constraints.isEmpty then true
  else
    match parse_version plugin_version with
    | none => false
    | some v => checkConstraintList v constraints

/-- Characters allowed after the first letter of a dependency name by the
regular expression in DependencyManager._parse_dependency. -/
def isNameChar (c : Char) : Bool := c.isAlpha || c.isDigit || c = '_' || c = '-'

/-- Embedding of DependencyManager._parse_dependency
(src/src/plugins/dependency.py lines 94 to 130): the greedy name group
takes the longest run of name characters after a leading letter, the rest
is split on commas into trimmed non-empty constraint strings.  A spec not
matching the regular expression (empty after stripping, a non-letter first
character, or an internal newline that the dot cannot match) gives none. -/
def parse_dependency (dep_spec : String) : Option (String × List String) :=
  let s := pyStrip dep_spec
  match s.data with
  | [] => none
  | c :: rest =>
    if c.isAlpha then
      let nameChars := c :: rest.takeWhile isNameChar
      let restChars := rest.dropWhile isNameChar
      if restChars.any (fun ch => ch = '\n') then none
      else
        some (String.mk nameChars,
          ((splitOnChar ',' restChars).map (fun g => String.mk (trimChars g))).filter
            (fun cstr => cstr ≠ ""))
    else none

/-- Directed dependency graph state, embedding the networkx DiGraph held
by DependencyManager: a node list and an edge list, with set semantics
kept by the insertion functions. -/
structure DepGraph where
  nodes : List String
  edges : List (String × String)

/-- Graph with no nodes or edges. -/
def empty_graph : DepGraph := ⟨[], []⟩

/-- Embedding of DiGraph.add_node: adding an existing node is a no-op. -/
def add_node (g : DepGraph) (n : String) : DepGraph :=
  if n ∈ g.nodes then g else ⟨g.nodes ++ [n], g.edges⟩

/-- Embedding of DiGraph.add_edge: both endpoints are added as nodes and
a duplicate edge is a no-op. -/
def add_edge (g : DepGraph) (u v : String) : DepGraph :=
  let g1 := add_node (add_node g u) v
  if (u, v) ∈ g1.edges then g1 else ⟨g1.nodes, g1.edges ++ [(u, v)]⟩

/-- A node of the remaining set with no incoming edge from the remaining
set; the selection criterion of Kahn topological sorting. -/
def noIncoming (edges : List (String × String)) (remaining : List String) (v : String) : Bool :=
  !(edges.any (fun e => decide (e.1 ∈ remaining) && (e.2 == v)))

/-- Kahn topological sort with explicit fuel: repeatedly emit the first
remaining node without incoming edges from the remaining set; none when
the algorithm gets stuck, which happens exactly on cyclic graphs. -/
def kahn (edges : List (String × String)) : Nat → List String → Option (List String)
  | 0, remaining => if remaining.isEmpty then some [] else none
  | fuel + 1, remaining =>
    if remaining.isEmpty then some []
    else
      match remaining.find? (noIncoming edges remaining) with
      | none => none
      | some v => (kahn edges fuel (remaining.erase v)).map (fun order => v :: order)

/-- Model of networkx topological_sort on the embedded graph (Kahn order
with deterministic tie-breaking); none models the NetworkXUnfeasible
exception raised on a cyclic graph. -/
def topological_sort (g : DepGraph) : Option (List String) :=
  kahn g.edges g.nodes.length g.nodes

/-- Model of the test (len(list(nx.simple_cycles(G))) > 0) used by
DependencyManager._would_create_cycle: an executable decision of the
existence of a cycle.  The theorem has_cycle_iff_walk below proves it
equivalent to the existence of a closed directed walk, which justifies
this embedding of the library call. -/
def has_cycle (g : DepGraph) : Bool := (topological_sort g).isNone

/-- Directed walk of at least one edge in an edge list. -/
inductive EdgeWalk (edges : List (String × String)) : String → String → Prop
  | single {u v : String} : (u, v) ∈ edges → EdgeWalk edges u v
  | cons {u w v : String} : (u, w) ∈ edges → EdgeWalk edges w v → EdgeWalk edges u v

/-- Graph well-formedness: every edge endpoint is a node.  The insertion
functions above preserve it. -/
def EdgesClosed (g : DepGraph) : Prop :=
  ∀ e ∈ g.edges, e.1 ∈ g.nodes ∧ e.2 ∈ g.nodes

/-- JSON trees, modelling the values that the Python json module reads
and writes.  The round trip json.loads (json.dumps x) is the identity on
such trees, so persistence is modelled at the tree level. -/
inductive Json where
  | null
  | bool (b : Bool)
  | num (n : Int)
  | str (s : String)
  | arr (items : List Json)
  | obj (fields : List (String × Json))

/-- Plugin metadata, embedding the PluginMetadata dataclass
(src/src/plugins/core.py lines 42 to 63).  Datetime values are carried as
their ISO strings, dictionaries as ordered association lists. -/
structure PluginMetadata where
  name : String
  version : String
  description : String := ""
  author : String := ""
  email : Option String := none
  homepage : Option String := none
  repository : Option String := none
  license : Option String := none
  keywords : List String := []
  categories : List String := []
  min_core_version : Option String := none
  max_core_version : Option String := none
  python_requires : Option String := none
  dependencies : List String := []
  optional_dependencies : List (String × List String) := []
  entry_points : List (String × String) := []
  config_schema : Option Json := none
  created_at : String := ""
  updated_at : String := ""

/-- Plugin type enumeration (src/src/plugins/core.py lines 31 to 39). -/
inductive PluginType where
  | template
  | provider
  | validator
  | generator
  | hook
  | extension
  | middleware
deriving DecidableEq

/-- String value of a plugin type, as in the Python enum. -/
def PluginType.value : PluginType → String
  | .template => "template"
  | .provider => "provider"
  | .validator => "validator"
  | .generator => "generator"
  | .hook => "hook"
  | .extension => "extension"
  | .middleware => "middleware"

/-- Plugin manifest, embedding the PluginManifest dataclass
(src/src/plugins/core.py lines 66 to 81). -/
structure PluginManifest where
  metadata : PluginMetadata
  plugin_type : PluginType
  main_class : String := ""
  module_path : String := ""
  config_file : Option String := none
  assets_dir : Option String := none
  docs_dir : Option String := none
  tests_dir : Option String := none
  permissions : List String := []
  hooks : List String := []
  provides : List String := []
  requires : List String := []

/-- Dependency manager state, embedding the mutable attributes of
DependencyManager (src/src/plugins/dependency.py lines 31 to 43). -/
structure DependencyManager where
  strict_versioning : Bool := true
  dependency_graph : DepGraph := empty_graph
  installed_plugins : List (String × String) := []

/-- Embedding of DependencyManager._get_available_versions
(src/src/plugins/dependency.py lines 229 to 244): the placeholder returns
an empty list. -/
def get_available_versions (_plugin_name : String) : List String := []

/-- Embedding of DependencyManager._check_single_dependency
(src/src/plugins/dependency.py lines 132 to 161): an installed dependency
is checked against the constraints, otherwise the (empty) available
version list is consulted. -/
def check_single_dependency (dm : DependencyManager) (dep_name : String)
    (constraints : List String) : Bool :=
  match dm.installed_plugins.lookup dep_name with
  | some installed_version => check_version_constraints installed_version constraints
  | none =>
    let available := get_available_versions dep_name
    if available.isEmpty then false
    else available.any (fun av => check_version_constraints av constraints)

/-- The temporary graph that DependencyManager._would_create_cycle builds:
a copy of the installed graph plus the new node and one edge from the new
plugin to each of its dependencies (src/src/plugins/dependency.py lines
257 to 263). -/
def temp_cycle_graph (g : DepGraph) (plugin_name : String) (dependencies : List String) : DepGraph :=
  dependencies.foldl (fun acc dep => add_edge acc plugin_name dep) (add_node g plugin_name)

/-- Embedding of DependencyManager._would_create_cycle
(src/src/plugins/dependency.py lines 246 to 271): build the temporary
graph and test it for a cycle. -/
def would_create_cycle (dm : DependencyManager) (plugin_name : String)
    (dependencies : List String) : Bool :=
  has_cycle (temp_cycle_graph dm.dependency_graph plugin_name dependencies)

/-- First loop of DependencyManager.check_dependencies: parse every
dependency spec, failing on the first invalid one
(src/src/plugins/dependency.py lines 68 to 74). -/
def parse_all_dependencies : List String → Option (List (String × List String))
  | [] => some []
  | d :: ds =>
    match parse_dependency d with
    | none => none
    | some p => (parse_all_dependencies ds).map (fun rest => p :: rest)

/-- Embedding of DependencyManager.check_dependencies
(src/src/plugins/dependency.py lines 45 to 92).  The method only reads the
manager state: parse all specs, check each dependency, then reject when
the temporary graph would contain a cycle. -/
def check_dependencies (dm : DependencyManager) (manifest : PluginManifest) : Bool :=
  match parse_all_dependencies manifest.metadata.dependencies with
  | none => false
  | some parsed =>
    if !(parsed.all (fun d => check_single_dependency dm d.1 d.2)) then false
    else if would_create_cycle dm manifest.metadata.name (parsed.map (fun d => d.1)) then false
    else true

/-- Embedding of DependencyManager.register_installed_plugin
(src/src/plugins/dependency.py lines 314 to 324): record the version and
add a node (no edges) to the dependency graph. -/
def register_installed_plugin (dm : DependencyManager) (plugin_name plugin_version : String) :
    DependencyManager :=
  { dm with
    installed_plugins := assocSet dm.installed_plugins plugin_name plugin_version,
    dependency_graph := add_node dm.dependency_graph plugin_name }

/-- Graph built by DependencyManager.resolve_installation_order over a
candidate set: one node per manifest and an edge from each parsed
dependency name to the dependent plugin; unparsable specs are skipped
(src/src/plugins/dependency.py lines 287 to 299). -/
def add_manifest_edges (g : DepGraph) (p : PluginManifest) : DepGraph :=
  p.metadata.dependencies.foldl
    (fun acc dep_spec =>
      match parse_dependency dep_spec with
      | some d => add_edge acc d.1 p.metadata.name
      | none => acc)
    (add_node g p.metadata.name)

/-- Graph built by DependencyManager.resolve_installation_order over the
whole candidate set (src/src/plugins/dependency.py lines 287 to 299). -/
def build_install_graph (plugins : List PluginManifest) : DepGraph :=
  plugins.foldl add_manifest_edges empty_graph

/-- Embedding of DependencyManager.resolve_installation_order
(src/src/plugins/dependency.py lines 273 to 312): topologically sort the
candidate graph; the exception on a cyclic graph is caught and an empty
list returned. -/
def resolve_installation_order (plugins : List PluginManifest) : List String :=
  (topological_sort (build_install_graph plugins)).getD []

/-- Resolved filesystem paths are modelled as segment lists; Path.resolve
is treated as already applied, so relative_to succeeds exactly on prefix
containment. -/
abbrev ResolvedPath := List String

/-- Security context, embedding the SecurityContext class
(src/src/plugins/security.py lines 24 to 56); violations keep only the
message, the wall-clock timestamp is dropped. -/
structure SecurityContext where
  plugin_name : String
  permissions : List String
  violations : List String := []

/-- Embedding of SecurityContext.has_permission. -/
def SecurityContext.has_permission (ctx : SecurityContext) (permission : String) : Bool :=
  ctx.permissions.contains permission

/-- Embedding of SecurityContext.add_violation: append to the log. -/
def add_violation (ctx : SecurityContext) (violation : String) : SecurityContext :=
  { ctx with violations := ctx.violations ++ [violation] }

/-- Sandbox configuration state, embedding the attributes of
PluginSandbox (src/src/plugins/security.py lines 92 to 116). -/
structure PluginSandbox where
  enabled : Bool := true
  max_cpu_time : Nat := 30
  max_memory : Nat := 104857600
  max_file_size : Nat := 10485760
  allowed_paths : List ResolvedPath := []
  network_access : Bool := false
  temp_dir : ResolvedPath

/-- Embedding of PluginSandbox._is_path_under
(src/src/plugins/security.py lines 301 to 307): relative_to succeeds
exactly when the parent is a prefix of the resolved path. -/
def is_path_under (path parent : ResolvedPath) : Bool :=
  parent.isPrefixOf path

/-- Embedding of PluginSandbox._is_in_temp_directory
(src/src/plugins/security.py lines 294 to 299). -/
def is_in_temp_directory (sb : PluginSandbox) (path : ResolvedPath) : Bool :=
  is_path_under path sb.temp_dir

/-- Embedding of PluginSandbox._is_path_allowed
(src/src/plugins/security.py lines 262 to 292): the temp directory is
always allowed, then the explicitly allowed roots are searched. -/
def is_path_allowed (sb : PluginSandbox) (path : ResolvedPath) : Bool :=
  is_in_temp_directory sb path || sb.allowed_paths.any (fun ap => is_path_under path ap)

/-- Outcome of the intercepted open: opened means the call is delegated
to the original builtin open, denied models a raised PermissionError. -/
inductive OpenOutcome where
  | opened
  | denied (message : String)
deriving DecidableEq

/-- Boolean test for the opened outcome. -/
def OpenOutcome.isOpened : OpenOutcome → Bool
  | .opened => true
  | .denied _ => false

/-- Write-mode test used by PluginSandbox._secure_open
(src/src/plugins/security.py line 201). -/
def is_write_mode (mode : String) : Bool :=
  mode.data.any (fun c => c = 'w') || mode.data.any (fun c => c = 'a') ||
    mode.data.any (fun c => c = '+')

/-- Embedding of PluginSandbox._secure_open
(src/src/plugins/security.py lines 157 to 228) for path arguments.  The
first component is the outcome, the second the context after any
violation was recorded.  With no active context the call is delegated
unchanged to the original open with no check and no violation. -/
def secure_open (sb : PluginSandbox) (ctx? : Option SecurityContext)
    (file : ResolvedPath) (mode : String) : OpenOutcome × Option SecurityContext :=
  match ctx? with
  | none => (.opened, none)
  | some ctx =>
    if is_write_mode mode then
      if !ctx.has_permission "file_write" && !ctx.has_permission "temp_write" then
        (.denied "no write permission", some (add_violation ctx "unauthorized file write attempt"))
      else if ctx.has_permission "temp_write" && !ctx.has_permission "file_write" &&
          !is_in_temp_directory sb file then
        (.denied "write only to temp directory",
          some (add_violation ctx "write outside temp directory"))
      else if !is_path_allowed sb file then
        (.denied "access denied", some (add_violation ctx "access to forbidden path"))
      else (.opened, some ctx)
    else
      if !ctx.has_permission "file_read" then
        (.denied "no read permission", some (add_violation ctx "unauthorized file read attempt"))
      else if !is_path_allowed sb file then
        (.denied "access denied", some (add_violation ctx "access to forbidden path"))
      else (.opened, some ctx)

/-- Embedding of PluginSandbox._get_current_context
(src/src/plugins/security.py lines 309 to 312): the context table is keyed
by thread_ followed by the thread identifier. -/
def get_current_context (contexts : List (String × SecurityContext)) (thread_id : Nat) :
    Option SecurityContext :=
  contexts.lookup ("thread_" ++ toString thread_id)

/-- Entry side of PluginSandbox.secure_execution
(src/src/plugins/security.py lines 339 to 344): store a fresh context
under the key of the current thread. -/
def secure_execution_enter (contexts : List (String × SecurityContext)) (thread_id : Nat)
    (plugin_name : String) (permissions : List String) : List (String × SecurityContext) :=
  assocSet contexts ("thread_" ++ toString thread_id)
    { plugin_name := plugin_name, permissions := permissions, violations := [] }

/-- Exit side of PluginSandbox.secure_execution
(src/src/plugins/security.py line 366): the context of the current thread
is removed. -/
def secure_execution_exit (contexts : List (String × SecurityContext)) (thread_id : Nat) :
    List (String × SecurityContext) :=
  contexts.filter (fun kv => kv.1 ≠ "thread_" ++ toString thread_id)

/-- Embedding of PluginSandbox.create_temp_directory
(src/src/plugins/security.py lines 414 to 428): the private directory of
a plugin is temp_dir extended by plugin_, the plugin name and the creation
time. -/
def create_temp_directory_path (sb : PluginSandbox) (plugin_name : String) (t : Nat) :
    ResolvedPath :=
  sb.temp_dir ++ ["plugin_" ++ plugin_name ++ "_" ++ toString t]

/-- Loader configuration, embedding the attributes of PluginLoader
(src/src/plugins/loader.py lines 47 to 51). -/
structure PluginLoader where
  isolation_enabled : Bool := true
  max_package_size : Nat := 104857600
  allowed_extensions : List String := [".py", ".json", ".yaml", ".yml"]

/-- Embedding of PluginLoader._validate_archive_contents
(src/src/plugins/loader.py lines 212 to 245): reject an entry containing
the two-dot substring, starting with a slash, or longer than 255
characters.  The extension check of lines 239 to 243 only logs a warning
and never fails, so it does not appear in the result. -/
def validate_archive_contents (file_list : List String) : Bool :=
  file_list.all (fun file_name =>
    !(hasSubstr ['.', '.'] file_name.data) && !(startsWithSlash file_name) &&
      file_name.length ≤ 255)

/-- Archive formats dispatched on in PluginLoader._extract_package. -/
inductive ArchiveFormat where
  | zip
  | targz
  | tarbz2
  | tarxz
  | unsupported

/-- An archive package: its size, format, entry name list, and the result
the nested manifest search of _find_plugin_root would give after
extraction. -/
structure ArchivePackage where
  size : Nat
  fmt : ArchiveFormat
  entries : List String
  plugin_root : Option String

/-- Result of an extraction attempt: the entries that were written to the
extraction directory, and the returned plugin root when the call
succeeded. -/
structure ExtractOutcome where
  extracted : List String
  result : Option String
deriving DecidableEq

/-- Embedding of PluginLoader._extract_package
(src/src/plugins/loader.py lines 151 to 210): size ceiling first, then for
a supported format the complete entry list is validated before extractall
runs; a failed validation extracts nothing. -/
def extract_package (loader : PluginLoader) (pkg : ArchivePackage) : ExtractOutcome :=
  if pkg.size > loader.max_package_size then ⟨[], none⟩
  else
    match pkg.fmt with
    | .unsupported => ⟨[], none⟩
    | _ =>
      if validate_archive_contents pkg.entries then
        match pkg.plugin_root with
        | some root => ⟨pkg.entries, some root⟩
        | none => ⟨pkg.entries, none⟩
      else ⟨[], none⟩

/-- Installed plugin trees: relative file paths with their contents. -/
abbrev PluginTree := List (String × String)

/-- A directory source for PluginLoader.install: the manifest that
discovery resolves from it (none when no valid manifest is found) and the
file tree to be copied. -/
structure InstallSource where
  manifest : Option PluginManifest
  tree : PluginTree

/-- Embedding of the final-path logic of PluginLoader.install for a
directory source distinct from the target
(src/src/plugins/loader.py lines 106 to 143): resolve the manifest,
compute target_dir/pluginName, fail without modification when it exists
and force is false, otherwise remove any prior install in full and copy
the source tree into place.  The first component is the returned install
path, the second the target directory contents afterwards. -/
def install (target_dir : String) (contents : List (String × PluginTree))
    (source : InstallSource) (force : Bool) : Option String × List (String × PluginTree) :=
  match source.manifest with
  | none => (none, contents)
  | some manifest =>
    let plugin_name := manifest.metadata.name
    if (contents.lookup plugin_name).isSome && !force then (none, contents)
    else
      (some (target_dir ++ "/" ++ plugin_name), assocSet contents plugin_name source.tree)

/-- Lookup of a key in a JSON object; none for a missing key or a
non-object, where the Python subscript would raise. -/
def json_obj_get (j : Json) (key : String) : Option Json :=
  match j with
  | .obj fields => fields.lookup key
  | _ => none

/-- Assignment of a key in a JSON object, leaving any non-object
unchanged (the embedding only applies it to objects). -/
def json_obj_set (j : Json) (key : String) (v : Json) : Json :=
  match j with
  | .obj fields => .obj (assocSet fields key v)
  | _ => j

/-- Python membership test of a string in a JSON list of names: equality
holds only against string items. -/
def json_str_mem (items : List Json) (s : String) : Bool :=
  items.any (fun j =>
    match j with
    | .str t => t == s
    | _ => false)

/-- JSON encoding of a string list. -/
def string_list_json (l : List String) : Json := .arr (l.map Json.str)

/-- JSON encoding of an optional string, null when absent. -/
def opt_str_json : Option String → Json
  | none => .null
  | some s => .str s

/-- Dictionary form of PluginMetadata as dataclasses.asdict produces it
inside PluginRegistry._manifest_to_dict, with datetimes already as ISO
strings (src/src/plugins/registry.py lines 211 to 234). -/
def metadata_to_dict (md : PluginMetadata) : Json :=
  .obj [
    ("name", .str md.name),
    ("version", .str md.version),
    ("description", .str md.description),
    ("author", .str md.author),
    ("email", opt_str_json md.email),
    ("homepage", opt_str_json md.homepage),
    ("repository", opt_str_json md.repository),
    ("license", opt_str_json md.license),
    ("keywords", string_list_json md.keywords),
    ("categories", string_list_json md.categories),
    ("min_core_version", opt_str_json md.min_core_version),
    ("max_core_version", opt_str_json md.max_core_version),
    ("python_requires", opt_str_json md.python_requires),
    ("dependencies", string_list_json md.dependencies),
    ("optional_dependencies", .obj (md.optional_dependencies.map
      (fun kv => (kv.1, string_list_json kv.2)))),
    ("entry_points", .obj (md.entry_points.map (fun kv => (kv.1, Json.str kv.2)))),
    ("config_schema", match md.config_schema with
      | none => Json.null
      | some j => j),
    ("created_at", .str md.created_at),
    ("updated_at", .str md.updated_at)]

/-- Embedding of PluginRegistry._manifest_to_dict
(src/src/plugins/registry.py lines 211 to 234): the dataclass dictionary
with the plugin type replaced by its string value. -/
def manifest_to_dict (m : PluginManifest) : Json :=
  .obj [
    ("metadata", metadata_to_dict m.metadata),
    ("plugin_type", .str m.plugin_type.value),
    ("main_class", .str m.main_class),
    ("module_path", .str m.module_path),
    ("config_file", opt_str_json m.config_file),
    ("assets_dir", opt_str_json m.assets_dir),
    ("docs_dir", opt_str_json m.docs_dir),
    ("tests_dir", opt_str_json m.tests_dir),
    ("permissions", string_list_json m.permissions),
    ("hooks", string_list_json m.hooks),
    ("provides", string_list_json m.provides),
    ("requires", string_list_json m.requires)]

/-- The plugin entry built by PluginRegistry.register
(src/src/plugins/registry.py lines 184 to 193); now is the ISO timestamp
of the registration. -/
def mk_plugin_entry (m : PluginManifest) (install_path now : String) : Json :=
  .obj [
    ("manifest", manifest_to_dict m),
    ("install_path", .str install_path),
    ("installed_at", .str now),
    ("status", .str "installed"),
    ("enabled", .bool true),
    ("load_count", .num 0),
    ("last_loaded", .null),
    ("errors", .arr [])]

/-- One index-section update of PluginRegistry._update_indexes: ensure the
key holds a list, then append the plugin name when absent.  A non-list
value under the key models a Python type error, hence none. -/
def index_add (sec : Json) (key plugin_name : String) : Option Json :=
  match sec with
  | .obj fields =>
    let fields1 := if (fields.lookup key).isSome then fields else assocSet fields key (.arr [])
    match fields1.lookup key with
    | some (.arr items) =>
      if json_str_mem items plugin_name then some (.obj fields1)
      else some (.obj (assocSet fields1 key (.arr (items ++ [.str plugin_name]))))
    | _ => none
  | _ => none

/-- Cloud provider names recognised by the provider index
(src/src/plugins/registry.py lines 268 and 271). -/
def cloud_provider_names : List String := ["aws", "azure", "gcp", "google", "microsoft"]

/-- Provider terms of a manifest: lower-cased keywords and categories that
name a recognised cloud provider (src/src/plugins/registry.py lines 266
to 272). -/
def provider_terms (md : PluginMetadata) : List String :=
  md.keywords.filterMap (fun k =>
    let l := pyLower k
    if cloud_provider_names.contains l then some l else none) ++
  md.categories.filterMap (fun c =>
    let l := pyLower c
    if cloud_provider_names.contains l then some l else none)

/-- Fold of index_add over the provider terms
(src/src/plugins/registry.py lines 274 to 278). -/
def provider_index_fold (sec : Json) (terms : List String) (plugin_name : String) :
    Option Json :=
  terms.foldlM (fun acc term => index_add acc term plugin_name) sec

/-- Embedding of PluginRegistry._update_indexes
(src/src/plugins/registry.py lines 236 to 282) on the whole registry
data: the by_type, by_author and by_provider sections gain the plugin
name, and a non-empty dependency list is recorded in the dependency
index.  Missing or ill-typed index structure models a raised error, hence
none. -/
def update_indexes (data : Json) (m : PluginManifest) : Option Json := do
  let idx0 ← json_obj_get data "index"
  let bt ← json_obj_get idx0 "by_type"
  let bt1 ← index_add bt m.plugin_type.value m.metadata.name
  let idx1 := json_obj_set idx0 "by_type" bt1
  let ba ← json_obj_get idx1 "by_author"
  let ba1 ← index_add ba m.metadata.author m.metadata.name
  let idx2 := json_obj_set idx1 "by_author" ba1
  let bp ← json_obj_get idx2 "by_provider"
  let bp1 ← provider_index_fold bp (provider_terms m.metadata) m.metadata.name
  let idx3 := json_obj_set idx2 "by_provider" bp1
  let idx4 ←
    if m.metadata.dependencies.isEmpty then some idx3
    else
      match json_obj_get idx3 "dependencies" with
      | some (.obj dfields) =>
        some (json_obj_set idx3 "dependencies"
          (.obj (assocSet dfields m.metadata.name (string_list_json m.metadata.dependencies))))
      | _ => none
  some (json_obj_set data "index" idx4)

/-- Embedding of PluginRegistry.register
(src/src/plugins/registry.py lines 147 to 209): build the entry, upsert
it into the plugins map, update the indexes and save.  The returned value
is the saved registry data, which the atomic write-temp-and-rename of
_save_registry makes the exact content of the registry file; none models
an exception caught at line 207, in which case nothing is saved. -/
def register (data : Json) (m : PluginManifest) (install_path now : String) : Option Json :=
  match json_obj_get data "plugins" with
  | some (.obj ps) =>
    let entry := mk_plugin_entry m install_path now
    let data1 := json_obj_set data "plugins" (.obj (assocSet ps m.metadata.name entry))
    update_indexes data1 m
  | _ => none

/-- Embedding of PluginRegistry._validate_registry_structure
(src/src/plugins/registry.py lines 100 to 111). -/
def validate_registry_structure (data : Json) : Bool :=
  ["version", "plugins", "index"].all (fun key => (json_obj_get data key).isSome)

/-- The fresh registry data that PluginRegistry.__init__ builds
(src/src/plugins/registry.py lines 48 to 58). -/
def fresh_registry_data (created_at : String) : Json :=
  .obj [
    ("version", .str "1.0"),
    ("created_at", .str created_at),
    ("plugins", .obj []),
    ("index", .obj [
      ("by_type", .obj []),
      ("by_author", .obj []),
      ("by_provider", .obj []),
      ("dependencies", .obj [])])]

/-- State of the registry file as _load_registry sees it: absent,
unreadable or undecodable, or decoded JSON. -/
inductive RegistryFileState where
  | missing
  | corrupted
  | parsed (data : Json)

/-- Embedding of constructing a new PluginRegistry over a registry file:
__init__ builds fresh data and _load_registry replaces it with the file
content when that exists, decodes and passes the structure check; a
corrupted or ill-structured file is backed up and the fresh data kept
(src/src/plugins/registry.py lines 40 to 98; the backup writing of
_backup_registry is not modelled). -/
def load_registry (file : RegistryFileState) (now : String) : Json :=
  match file with
  | .parsed data => if validate_registry_structure data then data else fresh_registry_data now
  | .missing => fresh_registry_data now
  | .corrupted => fresh_registry_data now

/-- Embedding of PluginRegistry.get_plugin
(src/src/plugins/registry.py lines 380 to 390). -/
def get_plugin (data : Json) (plugin_name : String) : Option Json :=
  (json_obj_get data "plugins").bind (fun ps => json_obj_get ps plugin_name)

/-- Array test on a JSON value. -/
def json_is_arr : Json → Bool
  | .arr _ => true
  | _ => false

/-- Object test on a JSON value. -/
def json_is_obj : Json → Bool
  | .obj _ => true
  | _ => false

/-- Object whose values are all JSON lists, the shape the index sections
need for register to succeed. -/
def json_obj_of_arrays : Json → Bool
  | .obj fields => fields.all (fun kv => json_is_arr kv.2)
  | _ => false

/-- Optional JSON value present and an object of lists. -/
def opt_is_obj_of_arrays : Option Json → Bool
  | some s => json_obj_of_arrays s
  | none => false

/-- Optional JSON value present and an object. -/
def opt_is_obj : Option Json → Bool
  | some s => json_is_obj s
  | none => false

/-- Well-formed index section of the registry data. -/
def registry_index_wf (idx : Json) : Bool :=
  opt_is_obj_of_arrays (json_obj_get idx "by_type") &&
  opt_is_obj_of_arrays (json_obj_get idx "by_author") &&
  opt_is_obj_of_arrays (json_obj_get idx "by_provider") &&
  opt_is_obj (json_obj_get idx "dependencies")

/-- Well-formed index entry of an optional JSON value. -/
def opt_index_wf : Option Json → Bool
  | some idx => registry_index_wf idx
  | none => false

/-- Well-formed registry data: the shape that __init__ establishes and
every registry operation preserves, and under which register cannot hit a
type error. -/
def registry_wf (data : Json) : Bool :=
  (json_obj_get data "version").isSome &&
  opt_is_obj (json_obj_get data "plugins") &&
  opt_index_wf (json_obj_get data "index")

/-- Plugin lifecycle stages (src/src/plugins/core.py lines 19 to 28). -/
inductive PluginLifecycleStage where
  | unloaded
  | loaded
  | configured
  | initialized
  | active
  | suspended
  | error
  | uninstalled
deriving DecidableEq

/-- Observable state of a plugin instance together with the behaviour of
its abstract lifecycle methods: each result field gives the value the
plugin code returns, none modelling a raised exception. -/
structure PluginInstanceState where
  stage : PluginLifecycleStage := .unloaded
  initialize_result : Option Bool := some true
  activate_result : Option Bool := some true
  deactivate_result : Option Bool := some true
  cleanup_result : Option Bool := some true

/-- Embedding of PluginInterface.set_stage
(src/src/plugins/core.py lines 156 to 160): the requested stage is
assigned unconditionally, with no consultation of any transition table. -/
def set_stage (inst : PluginInstanceState) (stage : PluginLifecycleStage) :
    PluginInstanceState :=
  { inst with stage := stage }

/-- Transition table of the plugin lifecycle as the specification states
it: the chain Unloaded to Loaded to Configured to Initialized to Active,
Active and Suspended interchanging, the Error state reachable from any
stage, and Uninstalled terminal.  Modelled from the spec for comparison
with set_stage, which the source gives no table. -/
def legal_transition (a b : PluginLifecycleStage) : Bool :=
  if a = .uninstalled then false
  else if b = .error then true
  else if b = .uninstalled then true
  else
    [(PluginLifecycleStage.unloaded, PluginLifecycleStage.loaded),
     (.loaded, .configured),
     (.configured, .initialized),
     (.initialized, .active),
     (.active, .suspended),
     (.suspended, .active)].contains (a, b)

/-- Handle for a loaded plugin, embedding the Plugin container class
(src/src/plugins/core.py lines 259 to 299). -/
structure PluginHandle where
  inst : PluginInstanceState
  manifest : PluginManifest
  enabled : Bool := false
  error : Option String := none

/-- Embedding of Plugin.load (src/src/plugins/core.py lines 301 to 311):
sets the Loaded stage and reports success. -/
def plugin_load (p : PluginHandle) : Bool × PluginHandle :=
  (true, { p with inst := set_stage p.inst .loaded })

/-- Embedding of Plugin.initialize (src/src/plugins/core.py lines 313 to
324): on a true result the stage becomes Initialized, on an exception the
stage becomes Error, and the boolean is returned. -/
def plugin_initialize (p : PluginHandle) : Bool × PluginHandle :=
  match p.inst.initialize_result with
  | none => (false, { p with inst := set_stage p.inst .error, error := some "initialize raised" })
  | some r => (r, if r then { p with inst := set_stage p.inst .initialized } else p)

/-- Embedding of Plugin.activate (src/src/plugins/core.py lines 326 to
338): on a true result the stage becomes Active and the handle enabled. -/
def plugin_activate (p : PluginHandle) : Bool × PluginHandle :=
  match p.inst.activate_result with
  | none => (false, { p with inst := set_stage p.inst .error, error := some "activate raised" })
  | some r =>
    (r, if r then { p with inst := set_stage p.inst .active, enabled := true } else p)

/-- Plugin manager state: the active plugin map and the hook registry,
embedding the plugins and hooks dictionaries of PluginManager
(src/src/plugins/core.py lines 406 to 407); hook lists carry plugin
names. -/
structure PluginManagerState where
  plugins : List (String × PluginHandle) := []
  hooks : List (String × List String) := []

/-- Embedding of PluginManager._register_hooks
(src/src/plugins/core.py lines 560 to 565): append the plugin to the list
of every hook name its manifest declares. -/
def register_hooks (hooks : List (String × List String)) (p : PluginHandle) :
    List (String × List String) :=
  p.manifest.hooks.foldl
    (fun acc hook_name =>
      match acc.lookup hook_name with
      | none => assocSet acc hook_name [p.manifest.metadata.name]
      | some ps => assocSet acc hook_name (ps ++ [p.manifest.metadata.name]))
    hooks

/-- Embedding of PluginManager.load_plugin
(src/src/plugins/core.py lines 464 to 498).  The registry lookup, the
sandboxed loader call and the validator verdict are supplied as the
results those collaborators produce.  Only when the walk of Plugin.load,
Plugin.initialize and Plugin.activate succeeds end to end is the plugin
stored in the active map and are its hooks registered. -/
def load_plugin (st : PluginManagerState) (name : String)
    (registry_entry : Option String) (loader_result : Option PluginHandle)
    (validator_ok : Bool) : Bool × PluginManagerState :=
  if (st.plugins.lookup name).isSome then (true, st)
  else
    match registry_entry with
    | none => (false, st)
    | some _ =>
      match loader_result with
      | none => (false, st)
      | some plugin =>
        if !validator_ok then (false, st)
        else
          let r1 := plugin_load plugin
          if !r1.1 then (false, st)
          else
            let r2 := plugin_initialize r1.2
            if !r2.1 then (false, st)
            else
              let r3 := plugin_activate r2.2
              if !r3.1 then (false, st)
              else
                (true, { plugins := assocSet st.plugins name r3.2,
                         hooks := register_hooks st.hooks r3.2 })

/-! Lemmas about the graph embedding and Kahn sorting. -/

theorem noIncoming_spec {edges : List (String × String)} {remaining : List String} {v : String}
    (h : noIncoming edges remaining v = true) :
    ∀ u : String, (u, v) ∈ edges → u ∉ remaining := by
  intro u hmem hu
  simp only [noIncoming, Bool.not_eq_true', List.any_eq_false] at h
  have := h (u, v) hmem
  simp [hu] at this

theorem noIncoming_false {edges : List (String × String)} {remaining : List String} {v : String}
    (h : noIncoming edges remaining v = false) :
    ∃ u ∈ remaining, (u, v) ∈ edges := by
  simp only [noIncoming, Bool.not_eq_false', List.any_eq_true] at h
  obtain ⟨e, he, hcond⟩ := h
  simp only [Bool.and_eq_true, decide_eq_true_eq, beq_iff_eq] at hcond
  exact ⟨e.1, hcond.1, by rw [← hcond.2]; exact he⟩

theorem kahn_perm {edges : List (String × String)} :
    ∀ (fuel : Nat) (remaining order : List String), remaining.length ≤ fuel →
      kahn edges fuel remaining = some order → order.Perm remaining := by
  intro fuel
  induction fuel with
  | zero =>
    intro remaining order hlen hk
    have hrem : remaining = [] := by
      cases remaining with
      | nil => rfl
      | cons a l => simp at hlen
    subst hrem
    simp [kahn] at hk
    simp [← hk]
  | succ fuel ih =>
    intro remaining order hlen hk
    by_cases hemp : remaining.isEmpty
    · have hrem : remaining = [] := List.isEmpty_iff.mp hemp
      subst hrem
      simp [kahn] at hk
      simp [← hk]
    · rw [kahn, if_neg hemp] at hk
      cases hfind : remaining.find? (noIncoming edges remaining) with
      | none => rw [hfind] at hk; simp at hk
      | some v =>
        rw [hfind] at hk
        obtain ⟨rest, hrest, horder⟩ := Option.map_eq_some'.mp hk
        have hv : v ∈ remaining := List.mem_of_find?_eq_some hfind
        have hlen' : (remaining.erase v).length ≤ fuel := by
          rw [List.length_erase_of_mem hv]
          omega
        have hperm := ih (remaining.erase v) rest hlen' hrest
        rw [← horder]
        exact ((hperm.cons v).trans (List.perm_cons_erase hv).symm)

theorem kahn_respects_edges {edges : List (String × String)} :
    ∀ (fuel : Nat) (remaining order : List String), remaining.length ≤ fuel →
      kahn edges fuel remaining = some order →
      ∀ u v : String, (u, v) ∈ edges → u ∈ remaining → v ∈ remaining →
        order.indexOf u < order.indexOf v := by
  intro fuel
  induction fuel with
  | zero =>
    intro remaining order hlen _ u v _ hu _
    have hrem : remaining = [] := by
      cases remaining with
      | nil => rfl
      | cons a l => simp at hlen
    subst hrem
    simp at hu
  | succ fuel ih =>
    intro remaining order hlen hk u v he hu hv
    by_cases hemp : remaining.isEmpty
    · have hrem : remaining = [] := List.isEmpty_iff.mp hemp
      subst hrem
      simp at hu
    · rw [kahn, if_neg hemp] at hk
      cases hfind : remaining.find? (noIncoming edges remaining) with
      | none => rw [hfind] at hk; simp at hk
      | some w =>
        rw [hfind] at hk
        obtain ⟨rest, hrest, horder⟩ := Option.map_eq_some'.mp hk
        have hw : w ∈ remaining := List.mem_of_find?_eq_some hfind
        have hno : noIncoming edges remaining w = true := List.find?_some hfind
        have hlen' : (remaining.erase w).length ≤ fuel := by
          rw [List.length_erase_of_mem hw]
          omega
        by_cases hvw : v = w
        · exact absurd hu (by subst hvw; exact noIncoming_spec hno u he)
        · have hv' : v ∈ remaining.erase w := (List.mem_erase_of_ne hvw).mpr hv
          by_cases huw : u = w
          · subst huw horder
            rw [List.indexOf_cons_self]
            rw [List.indexOf_cons_ne rest (fun h => hvw h.symm)]
            exact Nat.succ_pos _
          · have hu' : u ∈ remaining.erase w := (List.mem_erase_of_ne huw).mpr hu
            have := ih (remaining.erase w) rest hlen' hrest u v he hu' hv'
            subst horder
            rw [List.indexOf_cons_ne rest (fun h => huw h.symm),
              List.indexOf_cons_ne rest (fun h => hvw h.symm)]
            exact Nat.succ_lt_succ this

theorem edgewalk_mem {edges : List (String × String)} {ns : List String}
    (hc : ∀ e ∈ edges, e.1 ∈ ns ∧ e.2 ∈ ns) {u v : String}
    (hw : EdgeWalk edges u v) : u ∈ ns ∧ v ∈ ns := by
  induction hw with
  | single h => exact hc _ h
  | cons h _ ih => exact ⟨(hc _ h).1, ih.2⟩

theorem kahn_respects_walk {edges : List (String × String)}
    {fuel : Nat} {remaining order : List String} (hlen : remaining.length ≤ fuel)
    (hk : kahn edges fuel remaining = some order)
    (hc : ∀ e ∈ edges, e.1 ∈ remaining ∧ e.2 ∈ remaining)
    {u v : String} (hw : EdgeWalk edges u v) :
    order.indexOf u < order.indexOf v := by
  induction hw with
  | single h =>
    exact kahn_respects_edges fuel remaining order hlen hk _ _ h (hc _ h).1 (hc _ h).2
  | cons h hw ih =>
    have h1 := kahn_respects_edges fuel remaining order hlen hk _ _ h (hc _ h).1 (hc _ h).2
    exact h1.trans ih

theorem kahn_cycle_none {edges : List (String × String)}
    {fuel : Nat} {remaining : List String} (hlen : remaining.length ≤ fuel)
    (hc : ∀ e ∈ edges, e.1 ∈ remaining ∧ e.2 ∈ remaining)
    {u : String} (hw : EdgeWalk edges u u) :
    kahn edges fuel remaining = none := by
  cases hk : kahn edges fuel remaining with
  | none => rfl
  | some order =>
    exact absurd (kahn_respects_walk hlen hk hc hw) (lt_irrefl _)

theorem stuck_has_cycle {edges : List (String × String)} {S : List String}
    (hne : S ≠ []) (h : ∀ v ∈ S, ∃ u ∈ S, (u, v) ∈ edges) :
    ∃ w : String, EdgeWalk edges w w := by
  classical
  obtain ⟨a, ha⟩ := List.exists_mem_of_ne_nil S hne
  let F : {x : String // x ∈ S} → {x : String // x ∈ S} :=
    fun x => ⟨(h x.1 x.2).choose, (h x.1 x.2).choose_spec.1⟩
  have hF : ∀ x : {x : String // x ∈ S}, ((F x).1, x.1) ∈ edges :=
    fun x => (h x.1 x.2).choose_spec.2
  let seq : Nat → {x : String // x ∈ S} := fun n => F^[n] ⟨a, ha⟩
  have hstep : ∀ n : Nat, ((seq (n + 1)).1, (seq n).1) ∈ edges := by
    intro n
    have : seq (n + 1) = F (seq n) := Function.iterate_succ_apply' F n ⟨a, ha⟩
    rw [this]
    exact hF (seq n)
  have walk_down : ∀ k i : Nat, EdgeWalk edges (seq (i + k + 1)).1 (seq i).1 := by
    intro k
    induction k with
    | zero => intro i; exact EdgeWalk.single (hstep i)
    | succ k ih =>
      intro i
      have hed : ((seq (i + (k + 1) + 1)).1, (seq (i + k + 1)).1) ∈ edges := by
        have := hstep (i + k + 1)
        have harith : i + k + 1 + 1 = i + (k + 1) + 1 := by omega
        rwa [harith] at this
      exact EdgeWalk.cons hed (ih i)
  have hcard : (S.toFinset).card < (Finset.univ : Finset (Fin (S.length + 1))).card := by
    rw [Finset.card_univ, Fintype.card_fin]
    exact Nat.lt_succ_of_le (List.toFinset_card_le S)
  have hmaps : ∀ k ∈ (Finset.univ : Finset (Fin (S.length + 1))),
      (seq k.1).1 ∈ S.toFinset := by
    intro k _
    exact List.mem_toFinset.mpr (seq k.1).2
  obtain ⟨x, _, y, _, hxy, heq⟩ :=
    Finset.exists_ne_map_eq_of_card_lt_of_maps_to hcard hmaps
  rcases lt_or_gt_of_ne hxy with hlt | hlt
  · refine ⟨(seq x.1).1, ?_⟩
    have harith : (y : Fin (S.length + 1)).1 = x.1 + (y.1 - x.1 - 1) + 1 := by
      have : x.1 < y.1 := hlt
      omega
    have hwalk := walk_down (y.1 - x.1 - 1) x.1
    rw [← harith] at hwalk
    rw [heq]
    rwa [heq] at hwalk
  · refine ⟨(seq y.1).1, ?_⟩
    have harith : (x : Fin (S.length + 1)).1 = y.1 + (x.1 - y.1 - 1) + 1 := by
      have : y.1 < x.1 := hlt
      omega
    have hwalk := walk_down (x.1 - y.1 - 1) y.1
    rw [← harith] at hwalk
    rw [← heq]
    rwa [← heq] at hwalk

theorem kahn_none_cycle {edges : List (String × String)} :
    ∀ (fuel : Nat) (remaining : List String), remaining.length ≤ fuel →
      kahn edges fuel remaining = none → ∃ w : String, EdgeWalk edges w w := by
  intro fuel
  induction fuel with
  | zero =>
    intro remaining hlen hk
    have hrem : remaining = [] := by
      cases remaining with
      | nil => rfl
      | cons a l => simp at hlen
    subst hrem
    simp [kahn] at hk
  | succ fuel ih =>
    intro remaining hlen hk
    by_cases hemp : remaining.isEmpty
    · rw [kahn, if_pos hemp] at hk
      simp at hk
    · rw [kahn, if_neg hemp] at hk
      cases hfind : remaining.find? (noIncoming edges remaining) with
      | none =>
        have hstuck : ∀ v ∈ remaining, ∃ u ∈ remaining, (u, v) ∈ edges := by
          intro v hv
          have hne := List.find?_eq_none.mp hfind v hv
          have hfalse : noIncoming edges remaining v = false := by
            simpa using hne
          exact noIncoming_false hfalse
        exact stuck_has_cycle (by simpa [List.isEmpty_iff] using hemp) hstuck
      | some v =>
        rw [hfind] at hk
        replace hk : Option.map (fun order => v :: order) (kahn edges fuel (remaining.erase v)) =
            none := hk
        have hv : v ∈ remaining := List.mem_of_find?_eq_some hfind
        have hlen' : (remaining.erase v).length ≤ fuel := by
          rw [List.length_erase_of_mem hv]
          omega
        have hnone : kahn edges fuel (remaining.erase v) = none := by
          cases hrec : kahn edges fuel (remaining.erase v) with
          | none => rfl
          | some rest => rw [hrec] at hk; simp at hk
        exact ih (remaining.erase v) hlen' hnone

theorem add_node_nodes_mono {g : DepGraph} {n x : String} (h : x ∈ g.nodes) :
    x ∈ (add_node g n).nodes := by
  unfold add_node
  split
  · exact h
  · exact List.mem_append_left _ h

theorem mem_add_node_self (g : DepGraph) (n : String) : n ∈ (add_node g n).nodes := by
  unfold add_node
  split
  · assumption
  · exact List.mem_append_right _ (List.mem_singleton.mpr rfl)

theorem add_node_edges (g : DepGraph) (n : String) : (add_node g n).edges = g.edges := by
  unfold add_node
  split <;> rfl

theorem add_edge_nodes (g : DepGraph) (u v : String) :
    (add_edge g u v).nodes = (add_node (add_node g u) v).nodes := by
  unfold add_edge
  simp only []
  split <;> rfl

theorem add_edge_nodes_mono {g : DepGraph} {u v x : String} (h : x ∈ g.nodes) :
    x ∈ (add_edge g u v).nodes := by
  rw [add_edge_nodes]
  exact add_node_nodes_mono (add_node_nodes_mono h)

theorem add_node_closed {g : DepGraph} (h : EdgesClosed g) (n : String) :
    EdgesClosed (add_node g n) := by
  intro e he
  rw [add_node_edges] at he
  exact ⟨add_node_nodes_mono (h e he).1, add_node_nodes_mono (h e he).2⟩

theorem add_edge_closed {g : DepGraph} (h : EdgesClosed g) (u v : String) :
    EdgesClosed (add_edge g u v) := by
  intro e he
  rw [add_edge_nodes]
  unfold add_edge at he
  simp only [] at he
  split at he
  · rw [add_node_edges, add_node_edges] at he
    exact ⟨add_node_nodes_mono (add_node_nodes_mono (h e he).1),
      add_node_nodes_mono (add_node_nodes_mono (h e he).2)⟩
  · rcases List.mem_append.mp he with hold | hnew
    · rw [add_node_edges, add_node_edges] at hold
      exact ⟨add_node_nodes_mono (add_node_nodes_mono (h e hold).1),
        add_node_nodes_mono (add_node_nodes_mono (h e hold).2)⟩
    · have : e = (u, v) := List.mem_singleton.mp hnew
      subst this
      exact ⟨add_node_nodes_mono (mem_add_node_self g u), mem_add_node_self _ v⟩

theorem has_cycle_true_of_walk {g : DepGraph} (hc : EdgesClosed g)
    {u : String} (hw : EdgeWalk g.edges u u) : has_cycle g = true := by
  unfold has_cycle topological_sort
  rw [kahn_cycle_none (le_refl _) hc hw]
  rfl

theorem exists_walk_of_has_cycle {g : DepGraph} (h : has_cycle g = true) :
    ∃ w : String, EdgeWalk g.edges w w := by
  unfold has_cycle topological_sort at h
  exact kahn_none_cycle g.nodes.length g.nodes (le_refl _) (Option.isNone_iff_eq_none.mp h)

theorem topological_sort_some_of_no_walk {g : DepGraph}
    (h : ¬ ∃ w : String, EdgeWalk g.edges w w) :
    ∃ order : List String, topological_sort g = some order := by
  cases hk : topological_sort g with
  | some order => exact ⟨order, rfl⟩
  | none =>
    unfold topological_sort at hk
    exact absurd (kahn_none_cycle g.nodes.length g.nodes (le_refl _) hk) h

theorem dep_fold_nodes_mono (name : String) (deps : List String) :
    ∀ (g : DepGraph) (x : String), x ∈ g.nodes →
      x ∈ (deps.foldl
        (fun acc dep_spec =>
          match parse_dependency dep_spec with
          | some d => add_edge acc d.1 name
          | none => acc) g).nodes := by
  induction deps with
  | nil => intro g x h; exact h
  | cons d ds ih =>
    intro g x h
    simp only [List.foldl_cons]
    apply ih
    cases parse_dependency d with
    | some pd => exact add_edge_nodes_mono h
    | none => exact h

theorem dep_fold_closed (name : String) (deps : List String) :
    ∀ g : DepGraph, EdgesClosed g →
      EdgesClosed (deps.foldl
        (fun acc dep_spec =>
          match parse_dependency dep_spec with
          | some d => add_edge acc d.1 name
          | none => acc) g) := by
  induction deps with
  | nil => intro g h; exact h
  | cons d ds ih =>
    intro g h
    simp only [List.foldl_cons]
    apply ih
    cases parse_dependency d with
    | some pd => exact add_edge_closed h _ _
    | none => exact h

theorem add_manifest_edges_nodes_mono {g : DepGraph} {p : PluginManifest} {x : String}
    (h : x ∈ g.nodes) : x ∈ (add_manifest_edges g p).nodes :=
  dep_fold_nodes_mono p.metadata.name p.metadata.dependencies _ x (add_node_nodes_mono h)

theorem add_manifest_edges_mem_self (g : DepGraph) (p : PluginManifest) :
    p.metadata.name ∈ (add_manifest_edges g p).nodes :=
  dep_fold_nodes_mono p.metadata.name p.metadata.dependencies _ _ (mem_add_node_self g _)

theorem add_manifest_edges_closed {g : DepGraph} (h : EdgesClosed g) (p : PluginManifest) :
    EdgesClosed (add_manifest_edges g p) :=
  dep_fold_closed p.metadata.name p.metadata.dependencies _ (add_node_closed h _)

theorem plugins_fold_nodes_mono (plugins : List PluginManifest) :
    ∀ (g : DepGraph) (x : String), x ∈ g.nodes →
      x ∈ (plugins.foldl add_manifest_edges g).nodes := by
  induction plugins with
  | nil => intro g x h; exact h
  | cons p ps ih =>
    intro g x h
    exact ih _ x (add_manifest_edges_nodes_mono h)

theorem plugins_fold_closed (plugins : List PluginManifest) :
    ∀ g : DepGraph, EdgesClosed g → EdgesClosed (plugins.foldl add_manifest_edges g) := by
  induction plugins with
  | nil => intro g h; exact h
  | cons p ps ih =>
    intro g h
    exact ih _ (add_manifest_edges_closed h p)

theorem build_install_graph_closed (plugins : List PluginManifest) :
    EdgesClosed (build_install_graph plugins) := by
  apply plugins_fold_closed
  intro e he
  simp [empty_graph] at he

theorem build_install_graph_mem {plugins : List PluginManifest} {p : PluginManifest}
    (h : p ∈ plugins) : p.metadata.name ∈ (build_install_graph plugins).nodes := by
  unfold build_install_graph
  generalize empty_graph = g
  induction plugins generalizing g with
  | nil => simp at h
  | cons q qs ih =>
    rcases List.mem_cons.mp h with hq | hmem
    · subst hq
      exact plugins_fold_nodes_mono qs _ _ (add_manifest_edges_mem_self g p)
    · exact ih hmem _

theorem temp_cycle_graph_closed {g : DepGraph} (h : EdgesClosed g)
    (plugin_name : String) (deps : List String) :
    EdgesClosed (temp_cycle_graph g plugin_name deps) := by
  unfold temp_cycle_graph
  generalize hg0 : add_node g plugin_name = g0
  have h0 : EdgesClosed g0 := hg0 ▸ add_node_closed h plugin_name
  clear hg0
  induction deps generalizing g0 with
  | nil => exact h0
  | cons d ds ih =>
    simp only [List.foldl_cons]
    exact ih _ (add_edge_closed h0 _ _)

/-! Lemmas about association lists and small helpers. -/

theorem assocSet_lookup_self {α : Type} :
    ∀ (l : List (String × α)) (k : String) (v : α), (assocSet l k v).lookup k = some v := by
  intro l k v
  induction l with
  | nil => simp [assocSet, List.lookup]
  | cons kv rest ih =>
    obtain ⟨k', v'⟩ := kv
    by_cases hk : k' = k
    · subst hk
      simp [assocSet, List.lookup]
    · simp only [assocSet, if_neg hk, List.lookup]
      have : (k == k') = false := beq_eq_false_iff_ne.mpr (fun h => hk h.symm)
      rw [this]
      exact ih

theorem assocSet_lookup_ne {α : Type} :
    ∀ (l : List (String × α)) (k k' : String) (v : α), k' ≠ k →
      (assocSet l k v).lookup k' = l.lookup k' := by
  intro l k k' v hne
  induction l with
  | nil =>
    simp [assocSet, List.lookup, beq_eq_false_iff_ne.mpr hne]
  | cons kv rest ih =>
    obtain ⟨a, b⟩ := kv
    by_cases ha : a = k
    · subst ha
      simp only [assocSet, if_pos rfl, List.lookup]
      rw [beq_eq_false_iff_ne.mpr hne]
    · simp only [assocSet, if_neg ha, List.lookup]
      cases hkk : k' == a with
      | true => rfl
      | false => exact ih

theorem lookup_filter_ne_none {α : Type} :
    ∀ (l : List (String × α)) (key : String),
      (l.filter (fun kv => kv.1 ≠ key)).lookup key = none := by
  intro l key
  induction l with
  | nil => rfl
  | cons kv rest ih =>
    obtain ⟨a, b⟩ := kv
    by_cases ha : a = key
    · subst ha
      simp only [List.filter]
      rw [show (decide ¬(a, b).1 = a) = false by simp]
      exact ih
    · simp only [List.filter]
      rw [show (decide ¬(a, b).1 = key) = true by simp [ha]]
      simp only [List.lookup]
      rw [beq_eq_false_iff_ne.mpr (fun h => ha h.symm)]
      exact ih

theorem checkConstraintList_eq_all (v : ReleaseVersion) :
    ∀ cs : List String,
      checkConstraintList v cs =
        cs.all (fun c => check_single_constraint v c == some true) := by
  intro cs
  induction cs with
  | nil => rfl
  | cons c rest ih =>
    simp only [checkConstraintList, List.all_cons]
    cases h : check_single_constraint v c with
    | none => simp [h]
    | some b =>
      cases b with
      | true => simp [h, ih]
      | false => simp [h]

/-- C2: an archive whose entry list contains an entry with a
parent-directory substring, an absolute path, or a name above the length
cap is rejected: the complete entry list fails validation and the
extraction step extracts nothing and returns no plugin directory
(PluginLoader._validate_archive_contents and _extract_package,
src/src/plugins/loader.py lines 151 to 245); the caller install then
fails (lines 91 to 93). -/
theorem c2_archive_rejected_before_extraction (loader : PluginLoader) (pkg : ArchivePackage)
    (entry : String) (hmem : entry ∈ pkg.entries)
    (hbad : hasSubstr ['.', '.'] entry.data = true ∨ startsWithSlash entry = true ∨
      255 < entry.length) :
    validate_archive_contents pkg.entries = false ∧
    extract_package loader pkg = ⟨[], none⟩ := by
  have hval : validate_archive_contents pkg.entries = false := by
    apply Bool.eq_false_iff.mpr
    intro htrue
    have hpred := List.all_eq_true.mp htrue entry hmem
    simp only [Bool.and_eq_true, Bool.not_eq_true', decide_eq_true_eq] at hpred
    rcases hbad with hb | hb | hb
    · rw [hpred.1.1] at hb; exact Bool.false_ne_true hb
    · rw [hpred.1.2] at hb; exact Bool.false_ne_true hb
    · omega
  refine ⟨hval, ?_⟩
  unfold extract_package
  by_cases hsz : pkg.size > loader.max_package_size
  · rw [if_pos hsz]
  · rw [if_neg hsz]
    cases pkg.fmt <;> simp [hval]

/-- C2 witness at a concrete traversal entry. -/
theorem c2_witness :
    validate_archive_contents ["../evil"] = false ∧
    extract_package { } { size := 10, fmt := .zip, entries := ["../evil"],
                          plugin_root := some "root" } = ⟨[], none⟩ :=
  c2_archive_rejected_before_extraction { }
    { size := 10, fmt := .zip, entries := ["../evil"], plugin_root := some "root" }
    "../evil" (by decide) (Or.inl (by decide))

/-- C5: version-constraint checking is the conjunction of the individual
operator tests, an empty constraint list matches every version, the
dependency spec with constraints at least 1.0.0 and below 2.0.0 parses to
that constraint list, which matches 1.5.0 and rejects 2.0.0 and 0.9.0
(DependencyManager._check_version_constraints and _parse_dependency,
src/src/plugins/dependency.py lines 94 to 130 and 163 to 227). -/
theorem c5_version_constraint_checking :
    (∀ v : String, check_version_constraints v [] = true) ∧
    (∀ (vs : String) (rv : ReleaseVersion) (cs : List String),
      parse_version vs = some rv →
      check_version_constraints vs cs =
        cs.all (fun c => check_single_constraint rv c == some true)) ∧
    parse_dependency "plugin>=1.0.0,<2.0.0" = some ("plugin", [">=1.0.0", "<2.0.0"]) ∧
    check_version_constraints "1.5.0" [">=1.0.0", "<2.0.0"] = true ∧
    check_version_constraints "2.0.0" [">=1.0.0", "<2.0.0"] = false ∧
    check_version_constraints "0.9.0" [">=1.0.0", "<2.0.0"] = false := by
  refine ⟨fun v => rfl, ?_, by decide, by decide, by decide, by decide⟩
  intro vs rv cs hp
  unfold check_version_constraints
  by_cases hcs : cs.isEmpty
  · rw [if_pos hcs]
    have hnil : cs = [] := List.isEmpty_iff.mp hcs
    subst hnil
    rfl
  · rw [if_neg hcs, hp]
    exact checkConstraintList_eq_all rv cs

/-- C5 witness instantiating the conjunction form at a concrete parsed
version. -/
theorem c5_witness :
    check_version_constraints "1.5.0" [">=1.0.0"] =
      ([">=1.0.0"].all (fun c => check_single_constraint [1, 5, 0] c == some true)) ∧
    check_version_constraints "9" [] = true :=
  ⟨c5_version_constraint_checking.2.1 "1.5.0" [1, 5, 0] [">=1.0.0"] (by decide),
    c5_version_constraint_checking.1 "9"⟩

/-- C6 counterexample: the transition from Unloaded directly to Active is
outside the legal table, yet PluginInterface.set_stage applies it to the
instance silently instead of rejecting it (src/src/plugins/core.py lines
156 to 160 contain no validation). -/
theorem c6_counterexample :
    legal_transition PluginLifecycleStage.unloaded PluginLifecycleStage.active = false ∧
    (set_stage { stage := PluginLifecycleStage.unloaded }
        PluginLifecycleStage.active).stage = PluginLifecycleStage.active := by
  exact ⟨by decide, rfl⟩

/-- C6 (amended): set_stage performs no transition validation at all;
every requested stage, legal or not, is assigned unconditionally to the
instance. -/
theorem c6_set_stage_applies_any (inst : PluginInstanceState) (stage : PluginLifecycleStage) :
    (set_stage inst stage).stage = stage := rfl

/-- C8: when the final path already holds an installation and force is
false, install fails and modifies nothing; with force, the prior install
directory is removed in full and replaced by the source tree
(PluginLoader.install, src/src/plugins/loader.py lines 59 to 149). -/
theorem c8_install_existing_path (target_dir : String) (contents : List (String × PluginTree))
    (source : InstallSource) (m : PluginManifest) (old : PluginTree)
    (hm : source.manifest = some m)
    (hex : contents.lookup m.metadata.name = some old) :
    install target_dir contents source false = (none, contents) ∧
    (install target_dir contents source true).1 =
      some (target_dir ++ "/" ++ m.metadata.name) ∧
    (install target_dir contents source true).2.lookup m.metadata.name = some source.tree := by
  unfold install
  rw [hm]
  simp only [hex]
  exact ⟨rfl, rfl, assocSet_lookup_self _ _ _⟩

/-- C8 witness at a concrete occupied target directory. -/
theorem c8_witness :
    install "plugins" [("alpha", [("main.py", "old")])]
      { manifest := some { metadata := { name := "alpha", version := "1.0.0" },
                           plugin_type := .template },
        tree := [("main.py", "new")] } false =
      (none, [("alpha", [("main.py", "old")])]) ∧
    (install "plugins" [("alpha", [("main.py", "old")])]
      { manifest := some { metadata := { name := "alpha", version := "1.0.0" },
                           plugin_type := .template },
        tree := [("main.py", "new")] } true).1 = some "plugins/alpha" ∧
    (install "plugins" [("alpha", [("main.py", "old")])]
      { manifest := some { metadata := { name := "alpha", version := "1.0.0" },
                           plugin_type := .template },
        tree := [("main.py", "new")] } true).2.lookup "alpha" = some [("main.py", "new")] :=
  c8_install_existing_path "plugins" [("alpha", [("main.py", "old")])]
    { manifest := some { metadata := { name := "alpha", version := "1.0.0" },
                         plugin_type := .template },
      tree := [("main.py", "new")] }
    { metadata := { name := "alpha", version := "1.0.0" }, plugin_type := .template }
    [("main.py", "old")] rfl (by decide)

/-- C9: a load of a plugin that is not yet active either fails at some
stage and leaves the manager state exactly unchanged, so the plugin is
absent from the active map and no hook of it is registered, or succeeds;
the hook table changes only on a fully successful walk
(PluginManager.load_plugin, src/src/plugins/core.py lines 464 to 498, and
PluginManager._register_hooks, lines 560 to 565). -/
theorem c9_load_plugin_failure_atomic (st : PluginManagerState) (name : String)
    (registry_entry : Option String) (loader_result : Option PluginHandle) (validator_ok : Bool)
    (hnew : st.plugins.lookup name = none) :
    ((load_plugin st name registry_entry loader_result validator_ok).1 = false →
      (load_plugin st name registry_entry loader_result validator_ok).2 = st) ∧
    ((load_plugin st name registry_entry loader_result validator_ok).2.hooks ≠ st.hooks →
      (load_plugin st name registry_entry loader_result validator_ok).1 = true) := by
  unfold load_plugin
  rw [hnew]
  cases registry_entry with
  | none => exact ⟨fun _ => rfl, fun h => absurd rfl h⟩
  | some entry =>
    cases loader_result with
    | none => exact ⟨fun _ => rfl, fun h => absurd rfl h⟩
    | some plugin =>
      cases validator_ok with
      | false => exact ⟨fun _ => rfl, fun h => absurd rfl h⟩
      | true =>
        obtain ⟨⟨stg, ir, ar, dr, cr⟩, mf, en, er⟩ := plugin
        cases ir with
        | none => exact ⟨fun _ => rfl, fun h => absurd rfl h⟩
        | some ib =>
          cases ib with
          | false => exact ⟨fun _ => rfl, fun h => absurd rfl h⟩
          | true =>
            cases ar with
            | none => exact ⟨fun _ => rfl, fun h => absurd rfl h⟩
            | some ab =>
              cases ab with
              | false => exact ⟨fun _ => rfl, fun h => absurd rfl h⟩
              | true => exact ⟨fun h => (nomatch h), fun _ => rfl⟩

/-- C9 witness: a loader failure leaves the state unchanged, and a fully
successful walk is the only way the hook table changes. -/
theorem c9_witness :
    (load_plugin { plugins := [], hooks := [] } "alpha" (some "path") none true).2 =
      { plugins := [], hooks := [] } ∧
    (load_plugin { plugins := [], hooks := [] } "beta" (some "path")
      (some { inst := { }, manifest := { metadata := { name := "beta", version := "1.0.0" },
                                         plugin_type := .template,
                                         hooks := ["on_render"] } }) true).1 = true :=
  ⟨(c9_load_plugin_failure_atomic { plugins := [], hooks := [] } "alpha" (some "path") none
      true rfl).1 rfl,
    (c9_load_plugin_failure_atomic { plugins := [], hooks := [] } "beta" (some "path")
      (some { inst := { }, manifest := { metadata := { name := "beta", version := "1.0.0" },
                                         plugin_type := .template,
                                         hooks := ["on_render"] } }) true rfl).2 (by decide)⟩

/-- C10: a call of the intercepted open on a thread with no active
security context is delegated unchanged to the original open with no
permission check, no path restriction and no recorded violation, and
after secure_execution exits the context of a thread is gone
(PluginSandbox._secure_open lines 179 to 198, _get_current_context lines
309 to 312 and secure_execution lines 314 to 369 of
src/src/plugins/security.py). -/
theorem c10_no_context_delegation (sb : PluginSandbox)
    (contexts : List (String × SecurityContext)) (thread_id : Nat)
    (file : ResolvedPath) (mode : String)
    (h : contexts.lookup ("thread_" ++ toString thread_id) = none) :
    secure_open sb (get_current_context contexts thread_id) file mode = (.opened, none) ∧
    ∀ cs : List (String × SecurityContext),
      secure_open sb (get_current_context (secure_execution_exit cs thread_id) thread_id)
        file mode = (.opened, none) := by
  constructor
  · unfold get_current_context
    rw [h]
    rfl
  · intro cs
    unfold get_current_context secure_execution_exit
    rw [lookup_filter_ne_none]
    rfl

/-- C10 witness on a thread with no context. -/
theorem c10_witness :
    secure_open { temp_dir := ["tmp"] } (get_current_context [] 7) ["etc", "hosts"] "r" =
      (.opened, none) :=
  (c10_no_context_delegation { temp_dir := ["tmp"] } [] 7 ["etc", "hosts"] "r" rfl).1

theorem parse_all_dependencies_eq :
    ∀ {ds : List String} {ps : List (String × List String)},
      parse_all_dependencies ds = some ps → ds.filterMap parse_dependency = ps := by
  intro ds
  induction ds with
  | nil =>
    intro ps h
    simp [parse_all_dependencies] at h
    simp [← h]
  | cons d rest ih =>
    intro ps h
    unfold parse_all_dependencies at h
    cases hd : parse_dependency d with
    | none => rw [hd] at h; simp at h
    | some p =>
      rw [hd] at h
      obtain ⟨tail, htail, hps⟩ := Option.map_eq_some'.mp h
      simp [List.filterMap_cons, hd, ih htail, ← hps]

/-- C3: a manifest whose dependency edges, added with its node to the
installed dependency graph, would create a cycle is rejected by
check_dependencies, which mutates nothing; and the committed mutation
register_installed_plugin preserves acyclicity of the dependency graph
(DependencyManager.check_dependencies and _would_create_cycle,
src/src/plugins/dependency.py lines 45 to 92 and 246 to 271). -/
theorem c3_check_dependencies_rejects_cycle (dm : DependencyManager) (m : PluginManifest)
    (hclosed : EdgesClosed dm.dependency_graph)
    (hcy : ∃ u : String, EdgeWalk
      (temp_cycle_graph dm.dependency_graph m.metadata.name
        ((m.metadata.dependencies.filterMap parse_dependency).map (fun d => d.1))).edges u u) :
    check_dependencies dm m = false ∧
    ∀ plugin_name plugin_version : String,
      (¬ ∃ u : String, EdgeWalk dm.dependency_graph.edges u u) →
      ¬ ∃ u : String, EdgeWalk
        (register_installed_plugin dm plugin_name plugin_version).dependency_graph.edges u u := by
  constructor
  · unfold check_dependencies
    cases hp : parse_all_dependencies m.metadata.dependencies with
    | none => rfl
    | some parsed =>
      have hpar : m.metadata.dependencies.filterMap parse_dependency = parsed :=
        parse_all_dependencies_eq hp
      have hwcc : would_create_cycle dm m.metadata.name (parsed.map (fun d => d.1)) = true := by
        unfold would_create_cycle
        obtain ⟨u, hw⟩ := hcy
        rw [hpar] at hw
        exact has_cycle_true_of_walk (temp_cycle_graph_closed hclosed _ _) hw
      simp only [hwcc]
      cases parsed.all (fun d => check_single_dependency dm d.1 d.2) <;> simp
  · intro pn pv hnc hcy2
    apply hnc
    obtain ⟨u, hw⟩ := hcy2
    refine ⟨u, ?_⟩
    have hedges : (register_installed_plugin dm pn pv).dependency_graph.edges =
        dm.dependency_graph.edges := add_node_edges dm.dependency_graph pn
    rwa [hedges] at hw

/-- C3 witness: a manifest depending on itself forms a one-node cycle in
the temporary graph and is rejected. -/
theorem c3_witness :
    check_dependencies { } { metadata := { name := "alpha", version := "1.0.0",
                                           dependencies := ["alpha"] },
                             plugin_type := .template } = false :=
  (c3_check_dependencies_rejects_cycle { }
    { metadata := { name := "alpha", version := "1.0.0", dependencies := ["alpha"] },
      plugin_type := .template }
    (by intro e he; simp [empty_graph] at he)
    ⟨"alpha", .single (by decide)⟩).1

/-- C4: over a candidate set whose parsed dependency relation is acyclic,
resolve_installation_order returns an order containing every candidate in
which each dependency precedes each plugin depending on it; a candidate
set containing a dependency cycle yields the empty list
(DependencyManager.resolve_installation_order,
src/src/plugins/dependency.py lines 273 to 312). -/
theorem c4_resolve_installation_order_correct (plugins : List PluginManifest) :
    ((¬ ∃ u : String, EdgeWalk (build_install_graph plugins).edges u u) →
      ∃ order : List String, resolve_installation_order plugins = order ∧
        (∀ p ∈ plugins, p.metadata.name ∈ order) ∧
        ∀ e ∈ (build_install_graph plugins).edges, order.indexOf e.1 < order.indexOf e.2) ∧
    ((∃ u : String, EdgeWalk (build_install_graph plugins).edges u u) →
      resolve_installation_order plugins = []) := by
  constructor
  · intro hnc
    obtain ⟨order, hord⟩ := topological_sort_some_of_no_walk hnc
    have hkahn : kahn (build_install_graph plugins).edges
        (build_install_graph plugins).nodes.length (build_install_graph plugins).nodes =
        some order := hord
    refine ⟨order, ?_, ?_, ?_⟩
    · unfold resolve_installation_order
      rw [hord]
      rfl
    · intro p hp
      have hperm := kahn_perm _ _ _ (le_refl _) hkahn
      exact hperm.mem_iff.mpr (build_install_graph_mem hp)
    · intro e he
      have hc := build_install_graph_closed plugins
      exact kahn_respects_edges _ _ _ (le_refl _) hkahn e.1 e.2
        (by rw [Prod.mk.eta]; exact he) (hc e he).1 (hc e he).2
  · intro hcy
    obtain ⟨u, hw⟩ := hcy
    unfold resolve_installation_order topological_sort
    rw [kahn_cycle_none (le_refl _) (build_install_graph_closed plugins) hw]
    rfl

/-- C4 witness: a two-element DAG gets a dependency-respecting order and
a two-cycle gets the empty list. -/
theorem c4_witness :
    (∃ order : List String,
      resolve_installation_order
        [{ metadata := { name := "alpha", version := "1.0.0" }, plugin_type := .template },
         { metadata := { name := "beta", version := "1.0.0", dependencies := ["alpha"] },
           plugin_type := .template }] = order ∧
      (∀ p ∈ [({ metadata := { name := "alpha", version := "1.0.0" },
                 plugin_type := .template } : PluginManifest),
               { metadata := { name := "beta", version := "1.0.0", dependencies := ["alpha"] },
                 plugin_type := .template }], p.metadata.name ∈ order) ∧
      ∀ e ∈ (build_install_graph
        [{ metadata := { name := "alpha", version := "1.0.0" }, plugin_type := .template },
         { metadata := { name := "beta", version := "1.0.0", dependencies := ["alpha"] },
           plugin_type := .template }]).edges, order.indexOf e.1 < order.indexOf e.2) ∧
    resolve_installation_order
      [{ metadata := { name := "gamma", version := "1.0.0", dependencies := ["delta"] },
         plugin_type := .template },
       { metadata := { name := "delta", version := "1.0.0", dependencies := ["gamma"] },
         plugin_type := .template }] = [] :=
  ⟨(c4_resolve_installation_order_correct _).1
      (by
        intro hcy
        obtain ⟨u, hw⟩ := hcy
        have h1 := has_cycle_true_of_walk (build_install_graph_closed _) hw
        have h2 : has_cycle (build_install_graph
            [{ metadata := { name := "alpha", version := "1.0.0" },
               plugin_type := .template },
             { metadata := { name := "beta", version := "1.0.0",
                             dependencies := ["alpha"] },
               plugin_type := .template }]) = false := by decide
        rw [h1] at h2
        exact Bool.noConfusion h2),
    (c4_resolve_installation_order_correct _).2
      (by
        refine ⟨"gamma", EdgeWalk.cons (w := "delta") ?_ (EdgeWalk.single ?_)⟩ <;> decide)⟩

/-- C1 counterexample: a context granted temp_write without file_write
opens a write-mode file under the shared sandbox temp directory but
outside the private temp directory of the plugin (the directory
create_temp_directory would make for it), openly contradicting the claim
that such writes succeed only under the own private temp directory of the
plugin: _is_in_temp_directory checks the shared temp_dir only
(src/src/plugins/security.py lines 207 to 211 and 294 to 299). -/
theorem c1_counterexample :
    (secure_open { temp_dir := ["tmp"] }
      (some { plugin_name := "alpha", permissions := ["file_read", "temp_write"] })
      ["tmp", "plugin_beta_7", "data"] "w").1 = OpenOutcome.opened ∧
    is_path_under ["tmp", "plugin_beta_7", "data"]
      (create_temp_directory_path { temp_dir := ["tmp"] } "alpha" 0) = false := by
  exact ⟨by decide, by decide⟩

/-- C1 (amended): with a context granting only file_read (neither
file_write nor temp_write) every write-mode open raises a permission
error and the file is not opened; with a context granting temp_write but
not file_write, a write-mode open succeeds exactly when the target path
resolves under the sandbox-wide configured temp directory, and raises a
permission error for any path outside it
(PluginSandbox._secure_open, src/src/plugins/security.py lines 157 to
228, and _is_in_temp_directory, lines 294 to 307). -/
theorem c1_sandbox_write_enforcement (sb : PluginSandbox) (ctx : SecurityContext)
    (file : ResolvedPath) (mode : String) (hw : is_write_mode mode = true) :
    (ctx.has_permission "file_write" = false → ctx.has_permission "temp_write" = false →
      (secure_open sb (some ctx) file mode).1.isOpened = false) ∧
    (ctx.has_permission "temp_write" = true → ctx.has_permission "file_write" = false →
      ((secure_open sb (some ctx) file mode).1.isOpened = true ↔
        is_in_temp_directory sb file = true)) := by
  constructor
  · intro hfw htw
    simp [secure_open, hw, hfw, htw, OpenOutcome.isOpened]
  · intro htw hfw
    by_cases htemp : is_in_temp_directory sb file
    · simp [secure_open, hw, hfw, htw, htemp, is_path_allowed, OpenOutcome.isOpened]
    · simp [secure_open, hw, hfw, htw, htemp, OpenOutcome.isOpened]

/-- C1 witness: a read-only context is denied a write, and a temp_write
context succeeds exactly on a path under the sandbox temp directory. -/
theorem c1_witness :
    ((secure_open { temp_dir := ["tmp"] }
      (some { plugin_name := "reader", permissions := ["file_read"] })
      ["etc", "passwd"] "w").1.isOpened = false) ∧
    ((secure_open { temp_dir := ["tmp"] }
      (some { plugin_name := "writer", permissions := ["file_read", "temp_write"] })
      ["tmp", "scratch"] "w").1.isOpened = true ↔
      is_in_temp_directory { temp_dir := ["tmp"] } ["tmp", "scratch"] = true) :=
  ⟨(c1_sandbox_write_enforcement { temp_dir := ["tmp"] }
      { plugin_name := "reader", permissions := ["file_read"] }
      ["etc", "passwd"] "w" (by decide)).1 (by decide) (by decide),
    (c1_sandbox_write_enforcement { temp_dir := ["tmp"] }
      { plugin_name := "writer", permissions := ["file_read", "temp_write"] }
      ["tmp", "scratch"] "w" (by decide)).2 (by decide) (by decide)⟩

/-! Lemmas for the registry round trip. -/

theorem lookup_value_of_all {α : Type} (p : α → Bool) :
    ∀ (l : List (String × α)) (k : String) (x : α),
      (∀ kv ∈ l, p kv.2 = true) → l.lookup k = some x → p x = true := by
  intro l
  induction l with
  | nil => intro k x _ hx; simp [List.lookup] at hx
  | cons kv rest ih =>
    intro k x hall hx
    obtain ⟨a, b⟩ := kv
    simp only [List.lookup] at hx
    cases hab : k == a with
    | true =>
      rw [hab] at hx
      simp at hx
      rw [← hx]
      exact hall (a, b) (List.mem_cons_self _ _)
    | false =>
      rw [hab] at hx
      exact ih k x (fun q hq => hall q (List.mem_cons_of_mem _ hq)) hx

theorem assocSet_all_values {α : Type} (p : α → Bool) :
    ∀ (l : List (String × α)) (k : String) (v : α),
      (∀ kv ∈ l, p kv.2 = true) → p v = true →
      ∀ kv ∈ assocSet l k v, p kv.2 = true := by
  intro l
  induction l with
  | nil =>
    intro k v _ hv kv hkv
    simp [assocSet] at hkv
    subst hkv
    exact hv
  | cons hd rest ih =>
    intro k v hall hv kv hkv
    obtain ⟨a, b⟩ := hd
    by_cases hak : a = k
    · rw [assocSet, if_pos hak] at hkv
      rcases List.mem_cons.mp hkv with h1 | h2
      · rw [h1]; exact hv
      · exact hall kv (List.mem_cons_of_mem _ h2)
    · rw [assocSet, if_neg hak] at hkv
      rcases List.mem_cons.mp hkv with h1 | h2
      · rw [h1]; exact hall (a, b) (List.mem_cons_self _ _)
      · exact ih k v (fun q hq => hall q (List.mem_cons_of_mem _ hq)) hv kv h2

theorem json_is_arr_spec {j : Json} (h : json_is_arr j = true) :
    ∃ items : List Json, j = .arr items := by
  cases j <;> simp [json_is_arr] at h ⊢

theorem json_is_obj_spec {j : Json} (h : json_is_obj j = true) :
    ∃ fields : List (String × Json), j = .obj fields := by
  cases j <;> simp [json_is_obj] at h ⊢

theorem json_obj_of_arrays_spec {j : Json} (h : json_obj_of_arrays j = true) :
    ∃ fields : List (String × Json), j = .obj fields ∧
      ∀ kv ∈ fields, json_is_arr kv.2 = true := by
  cases j with
  | obj fields =>
    refine ⟨fields, rfl, ?_⟩
    exact List.all_eq_true.mp (by simpa [json_obj_of_arrays] using h)
  | null => simp [json_obj_of_arrays] at h
  | bool b => simp [json_obj_of_arrays] at h
  | num n => simp [json_obj_of_arrays] at h
  | str s => simp [json_obj_of_arrays] at h
  | arr items => simp [json_obj_of_arrays] at h

theorem opt_is_obj_of_arrays_spec {o : Option Json} (h : opt_is_obj_of_arrays o = true) :
    ∃ s, o = some s ∧ json_obj_of_arrays s = true := by
  cases o with
  | none => simp [opt_is_obj_of_arrays] at h
  | some s => exact ⟨s, rfl, h⟩

theorem opt_is_obj_spec {o : Option Json} (h : opt_is_obj o = true) :
    ∃ s, o = some s ∧ json_is_obj s = true := by
  cases o with
  | none => simp [opt_is_obj] at h
  | some s => exact ⟨s, rfl, h⟩

theorem opt_index_wf_spec {o : Option Json} (h : opt_index_wf o = true) :
    ∃ idx, o = some idx ∧ registry_index_wf idx = true := by
  cases o with
  | none => simp [opt_index_wf] at h
  | some idx => exact ⟨idx, rfl, h⟩

theorem json_obj_get_some_obj {j : Json} {k : String} {x : Json}
    (h : json_obj_get j k = some x) : ∃ fields, j = .obj fields := by
  cases j <;> simp [json_obj_get] at h ⊢

theorem json_obj_of_arrays_all {fields : List (String × Json)}
    (h : ∀ kv ∈ fields, json_is_arr kv.2 = true) :
    json_obj_of_arrays (.obj fields) = true := by
  simp [json_obj_of_arrays, List.all_eq_true]
  exact fun a b hab => h (a, b) hab

theorem index_add_some {s : Json} (hs : json_obj_of_arrays s = true) (key name : String) :
    ∃ s2 : Json, index_add s key name = some s2 ∧ json_obj_of_arrays s2 = true := by
  obtain ⟨fields, rfl, hall⟩ := json_obj_of_arrays_spec hs
  by_cases hl : (fields.lookup key).isSome
  · obtain ⟨x, hx⟩ := Option.isSome_iff_exists.mp hl
    obtain ⟨items, rfl⟩ := json_is_arr_spec (lookup_value_of_all _ fields key x hall hx)
    by_cases hmem : json_str_mem items name
    · refine ⟨.obj fields, ?_, json_obj_of_arrays_all hall⟩
      simp [index_add, hx, hmem]
    · refine ⟨.obj (assocSet fields key (.arr (items ++ [.str name]))), ?_,
        json_obj_of_arrays_all (assocSet_all_values _ fields key _ hall rfl)⟩
      simp [index_add, hx, hmem]
  · have hnone : fields.lookup key = none := Option.not_isSome_iff_eq_none.mp hl
    have hall1 : ∀ kv ∈ assocSet fields key (Json.arr []), json_is_arr kv.2 = true :=
      assocSet_all_values _ fields key _ hall rfl
    refine ⟨.obj (assocSet (assocSet fields key (.arr [])) key (.arr ([] ++ [.str name]))),
      ?_, json_obj_of_arrays_all (assocSet_all_values _ _ key _ hall1 rfl)⟩
    simp [index_add, hnone, assocSet_lookup_self, json_str_mem]

theorem provider_fold_some {s : Json} (hs : json_obj_of_arrays s = true)
    (terms : List String) (name : String) :
    ∃ s2 : Json, provider_index_fold s terms name = some s2 ∧
      json_obj_of_arrays s2 = true := by
  induction terms generalizing s with
  | nil => exact ⟨s, rfl, hs⟩
  | cons t ts ih =>
    obtain ⟨s1, h1, hwf1⟩ := index_add_some hs t name
    obtain ⟨s2, h2, hwf2⟩ := ih hwf1
    refine ⟨s2, ?_, hwf2⟩
    unfold provider_index_fold at h2 ⊢
    rw [List.foldlM_cons, h1]
    simpa using h2

theorem update_indexes_some {data idx : Json} (m : PluginManifest)
    (hidx : json_obj_get data "index" = some idx)
    (hwf : registry_index_wf idx = true) :
    ∃ idx4 : Json, update_indexes data m = some (json_obj_set data "index" idx4) := by
  simp only [registry_index_wf, Bool.and_eq_true] at hwf
  obtain ⟨⟨⟨hbt, hba⟩, hbp⟩, hdep⟩ := hwf
  obtain ⟨s1, hs1, hs1w⟩ := opt_is_obj_of_arrays_spec hbt
  obtain ⟨ifs, rfl⟩ := json_obj_get_some_obj hs1
  obtain ⟨bt1, hbt1, hbt1w⟩ := index_add_some hs1w m.plugin_type.value m.metadata.name
  obtain ⟨s2, hs2, hs2w⟩ := opt_is_obj_of_arrays_spec hba
  obtain ⟨ba1, hba1, hba1w⟩ := index_add_some hs2w m.metadata.author m.metadata.name
  obtain ⟨s3, hs3, hs3w⟩ := opt_is_obj_of_arrays_spec hbp
  obtain ⟨bp1, hbp1, hbp1w⟩ :=
    provider_fold_some hs3w (provider_terms m.metadata) m.metadata.name
  obtain ⟨s4, hs4, hs4o⟩ := opt_is_obj_spec hdep
  obtain ⟨dfs, rfl⟩ := json_is_obj_spec hs4o
  have hga : json_obj_get (json_obj_set (Json.obj ifs) "by_type" bt1) "by_author" = some s2 := by
    show (assocSet ifs "by_type" bt1).lookup "by_author" = some s2
    rw [assocSet_lookup_ne _ _ _ _ (by decide)]
    exact hs2
  have hgp : json_obj_get
      (json_obj_set (json_obj_set (Json.obj ifs) "by_type" bt1) "by_author" ba1)
      "by_provider" = some s3 := by
    show (assocSet (assocSet ifs "by_type" bt1) "by_author" ba1).lookup "by_provider" = some s3
    rw [assocSet_lookup_ne _ _ _ _ (by decide), assocSet_lookup_ne _ _ _ _ (by decide)]
    exact hs3
  by_cases hde : m.metadata.dependencies.isEmpty
  · refine ⟨json_obj_set (json_obj_set (json_obj_set (Json.obj ifs) "by_type" bt1)
      "by_author" ba1) "by_provider" bp1, ?_⟩
    simp only [update_indexes, hidx, hs1, hbt1, hga, hba1, hgp, hbp1, hde,
      Option.bind_eq_bind, Option.some_bind, if_true]
  · have hgd : json_obj_get (json_obj_set (json_obj_set (json_obj_set (Json.obj ifs)
        "by_type" bt1) "by_author" ba1) "by_provider" bp1) "dependencies" =
        some (Json.obj dfs) := by
      show (assocSet (assocSet (assocSet ifs "by_type" bt1) "by_author" ba1)
        "by_provider" bp1).lookup "dependencies" = some (Json.obj dfs)
      rw [assocSet_lookup_ne _ _ _ _ (by decide), assocSet_lookup_ne _ _ _ _ (by decide),
        assocSet_lookup_ne _ _ _ _ (by decide)]
      exact hs4
    refine ⟨json_obj_set (json_obj_set (json_obj_set (json_obj_set (Json.obj ifs)
      "by_type" bt1) "by_author" ba1) "by_provider" bp1) "dependencies"
      (.obj (assocSet dfs m.metadata.name (string_list_json m.metadata.dependencies))), ?_⟩
    simp only [update_indexes, hidx, hs1, hbt1, hga, hba1, hgp, hbp1, hde, hgd,
      Option.bind_eq_bind, Option.some_bind, if_false, Bool.false_eq_true]

/-- C7: register followed by constructing a new PluginRegistry over the
saved registry file yields the stored record unchanged: the saved data
passes the structure check, reloading returns it as is, and the entry
under the plugin name is exactly the registered one, with the manifest
dictionary, install path, the status installed and the enabled flag
(PluginRegistry.register lines 147 to 209 and _load_registry lines 68 to
98 of src/src/plugins/registry.py; the json.dumps and json.loads round
trip is the identity on the JSON tree of the saved data). -/
theorem c7_register_reload_roundtrip (data : Json) (m : PluginManifest)
    (install_path now now2 : String) (hwf : registry_wf data = true) :
    ∃ file : Json,
      register data m install_path now = some file ∧
      load_registry (.parsed file) now2 = file ∧
      get_plugin file m.metadata.name = some (mk_plugin_entry m install_path now) := by
  simp only [registry_wf, Bool.and_eq_true] at hwf
  obtain ⟨⟨hver, hplug⟩, hidx⟩ := hwf
  obtain ⟨pj, hpj, hpjo⟩ := opt_is_obj_spec hplug
  obtain ⟨ps, rfl⟩ := json_is_obj_spec hpjo
  obtain ⟨idx, hidxg, hidxw⟩ := opt_index_wf_spec hidx
  obtain ⟨fs, rfl⟩ := json_obj_get_some_obj hpj
  have hver' := Option.isSome_iff_exists.mp hver
  have hidx1 : json_obj_get (json_obj_set (Json.obj fs) "plugins"
      (Json.obj (assocSet ps m.metadata.name (mk_plugin_entry m install_path now))))
      "index" = some idx := by
    show (assocSet fs "plugins" _).lookup "index" = some idx
    rw [assocSet_lookup_ne _ _ _ _ (by decide)]
    exact hidxg
  obtain ⟨idx4, hupd⟩ := update_indexes_some m hidx1 hidxw
  refine ⟨json_obj_set (json_obj_set (Json.obj fs) "plugins"
    (Json.obj (assocSet ps m.metadata.name (mk_plugin_entry m install_path now))))
    "index" idx4, ?_, ?_, ?_⟩
  · simp only [register, hpj]
    exact hupd
  · have h1 : json_obj_get (json_obj_set (json_obj_set (Json.obj fs) "plugins"
        (Json.obj (assocSet ps m.metadata.name (mk_plugin_entry m install_path now))))
        "index" idx4) "version" = json_obj_get (Json.obj fs) "version" := by
      show (assocSet (assocSet fs "plugins" _) "index" idx4).lookup "version" =
        fs.lookup "version"
      rw [assocSet_lookup_ne _ _ _ _ (by decide), assocSet_lookup_ne _ _ _ _ (by decide)]
    have h2 : json_obj_get (json_obj_set (json_obj_set (Json.obj fs) "plugins"
        (Json.obj (assocSet ps m.metadata.name (mk_plugin_entry m install_path now))))
        "index" idx4) "plugins" =
        some (Json.obj (assocSet ps m.metadata.name (mk_plugin_entry m install_path now))) := by
      show (assocSet (assocSet fs "plugins" _) "index" idx4).lookup "plugins" = _
      rw [assocSet_lookup_ne _ _ _ _ (by decide), assocSet_lookup_self]
    have h3 : json_obj_get (json_obj_set (json_obj_set (Json.obj fs) "plugins"
        (Json.obj (assocSet ps m.metadata.name (mk_plugin_entry m install_path now))))
        "index" idx4) "index" = some idx4 := by
      show (assocSet (assocSet fs "plugins" _) "index" idx4).lookup "index" = some idx4
      rw [assocSet_lookup_self]
    have hval : validate_registry_structure (json_obj_set (json_obj_set (Json.obj fs)
        "plugins" (Json.obj (assocSet ps m.metadata.name
          (mk_plugin_entry m install_path now)))) "index" idx4) = true := by
      simp [validate_registry_structure, h1, h2, h3, hver]
    simp [load_registry, hval]
  · have h2 : json_obj_get (json_obj_set (json_obj_set (Json.obj fs) "plugins"
        (Json.obj (assocSet ps m.metadata.name (mk_plugin_entry m install_path now))))
        "index" idx4) "plugins" =
        some (Json.obj (assocSet ps m.metadata.name (mk_plugin_entry m install_path now))) := by
      show (assocSet (assocSet fs "plugins" _) "index" idx4).lookup "plugins" = _
      rw [assocSet_lookup_ne _ _ _ _ (by decide), assocSet_lookup_self]
    simp only [get_plugin, h2, Option.bind_eq_bind, Option.some_bind]
    show (assocSet ps m.metadata.name (mk_plugin_entry m install_path now)).lookup
      m.metadata.name = some (mk_plugin_entry m install_path now)
    rw [assocSet_lookup_self]

/-- C7 witness: registering into a fresh registry and reloading the saved
file recovers the record. -/
theorem c7_witness :
    ∃ file : Json,
      register (fresh_registry_data "t0")
        { metadata := { name := "alpha", version := "1.0.0" }, plugin_type := .template }
        "plugins/alpha" "t1" = some file ∧
      load_registry (.parsed file) "t2" = file ∧
      get_plugin file "alpha" = some (mk_plugin_entry
        { metadata := { name := "alpha", version := "1.0.0" }, plugin_type := .template }
        "plugins/alpha" "t1") :=
  c7_register_reload_roundtrip (fresh_registry_data "t0")
    { metadata := { name := "alpha", version := "1.0.0" }, plugin_type := .template }
    "plugins/alpha" "t1" "t2" (by decide)
